import Mathlib

/-!
Verification of `src/crates/eldenring/src/dlut.rs` (fromsoftware-rs).

Shallow embedding of the Dantelion utility primitives:
* `DLFixedVector<T, C>` — fixed-capacity inline vector (`push`, `truncate`,
  `resize`, `Drop`);
* `DLAutoDeletePtr<T>` — allocator-routed owning pointer
  (`try_new_in`, `Drop`);
* `DLReferenceCountObjectBase` — reference-counted object header;
* `DLDateTime` / `PackedDate` — bit-packed calendar value and the leap-year
  helper of `calculate_time64`.

A `MaybeUninit<T>` storage slot is modelled as `Option T`: `none` is an
uninitialized slot, `some x` a slot holding the initialized value `x`.
Destruction of values (`assume_init_drop`, element drops) is made observable
as an explicit trace: the list of slot contents destroyed, in call order.
-/

/-- Model of `DLFixedVector<T, C>` (dlut.rs lines 159-165):
`elements: [MaybeUninit<T>; C]` becomes `Fin C → Option T`, plus the unknown
field `unk1` and the `checked_len` field. -/
@[ext]
structure DLFixedVector (T : Type) (C : Nat) where
  elements : Fin C → Option T
  unk1 : Nat
  checked_len : Nat

/-- The `Default` impl (dlut.rs lines 167-175): all slots uninitialized,
`unk1 = 0`, `checked_len = 0`. -/
def DLFixedVector.defaultVec (T : Type) (C : Nat) : DLFixedVector T C :=
  { elements := fun _ => none, unk1 := 0, checked_len := 0 }

/-- Model of `capacity()` (dlut.rs lines 186-188): the const generic `C`. -/
def DLFixedVector.capacity {T : Type} {C : Nat} (_ : DLFixedVector T C) : Nat :=
  C

/-- Model of `len()` (dlut.rs lines 178-180): `as_slice().len()`, where `as_slice`
builds a slice of the first `checked_len` slots
(`slice::from_raw_parts(.., self.checked_len)`), so `len() = checked_len`. -/
def DLFixedVector.len {T : Type} {C : Nat} (s : DLFixedVector T C) : Nat :=
  s.checked_len

/-- Model of `push` (dlut.rs lines 220-229): if `prev_len + 1 > capacity()` return
`Err(value)` without touching the vector; otherwise write `value` into slot
`prev_len` and set `checked_len = prev_len + 1`. The pair is (state after the
call, call result). -/
def DLFixedVector.push {T : Type} {C : Nat} (s : DLFixedVector T C) (value : T) :
    DLFixedVector T C × Except T Unit :=
  let prev_len := s.len
  if prev_len + 1 > s.capacity then
    (s, Except.error value)
  else
    ({ s with
        elements := fun i => if i.val = prev_len then some value else s.elements i,
        checked_len := prev_len + 1 },
      Except.ok ())

/-- Model of `truncate` (dlut.rs lines 233-242): if `new_len < prev_len`, drop the
values in slots `new_len..prev_len` in ascending index order
(`assume_init_drop`), then set `checked_len = new_len`; otherwise do nothing.
The second component is the drop trace: the contents of the destroyed slots in
the order the loop visits them. -/
def DLFixedVector.truncate {T : Type} {C : Nat} (s : DLFixedVector T C) (new_len : Nat) :
    DLFixedVector T C × List (Option T) :=
  let prev_len := s.len
  if new_len < prev_len then
    ({ s with
        elements := fun i =>
          if new_len ≤ i.val ∧ i.val < prev_len then none else s.elements i,
        checked_len := new_len },
      (List.range' new_len (prev_len - new_len)).map fun i =>
        if h : i < C then s.elements ⟨i, h⟩ else none)
  else
    (s, [])

/-- Model of `resize` (dlut.rs lines 248-263, `T: Clone`): if `new_len > capacity()`
return `Err(value)` untouched; if `new_len < len()` call `truncate(new_len)`;
otherwise fill slots `len()..new_len` with clones of `value` and set
`checked_len = new_len`. Components: state, drop trace, result. -/
def DLFixedVector.resize {T : Type} {C : Nat} (s : DLFixedVector T C) (new_len : Nat)
    (value : T) : DLFixedVector T C × List (Option T) × Except T Unit :=
  if new_len > s.capacity then
    (s, [], Except.error value)
  else if new_len < s.len then
    let t := s.truncate new_len
    (t.1, t.2, Except.ok ())
  else
    ({ s with
        elements := fun i =>
          if s.len ≤ i.val ∧ i.val < new_len then some value else s.elements i,
        checked_len := new_len },
      [], Except.ok ())

/-- The `Drop` impl (dlut.rs lines 280-284): `self.truncate(0)`. -/
def DLFixedVector.dropVec {T : Type} {C : Nat} (s : DLFixedVector T C) :
    DLFixedVector T C × List (Option T) :=
  s.truncate 0

/-- The safety invariant stated in `as_slice`/`push`/`truncate` comments:
`checked_len ≤ capacity` and every slot below `checked_len` is initialized. -/
def DLFixedVector.Inv {T : Type} {C : Nat} (s : DLFixedVector T C) : Prop :=
  s.checked_len ≤ C ∧ ∀ i : Fin C, i.val < s.checked_len → (s.elements i).isSome

instance {T : Type} {C : Nat} [DecidableEq T] (s : DLFixedVector T C) :
    Decidable s.Inv := by
  unfold DLFixedVector.Inv
  infer_instance

/-- One call of the mutating `DLFixedVector` API, used to describe the states
reachable from `Default::default()`. -/
inductive VecOp (T : Type) where
  | push : T → VecOp T
  | truncate : Nat → VecOp T
  | resize : Nat → T → VecOp T

/-- Apply one API call to a vector state, keeping only the state. -/
def DLFixedVector.applyOp {T : Type} {C : Nat} (s : DLFixedVector T C) :
    VecOp T → DLFixedVector T C
  | VecOp.push x => (s.push x).1
  | VecOp.truncate k => (s.truncate k).1
  | VecOp.resize k x => (s.resize k x).1

/-- The state reached from `Default::default()` by a sequence of API calls. -/
def DLFixedVector.runOps (T : Type) (C : Nat) (ops : List (VecOp T)) :
    DLFixedVector T C :=
  ops.foldl DLFixedVector.applyOp (DLFixedVector.defaultVec T C)

theorem DLFixedVector.inv_defaultVec (T : Type) (C : Nat) :
    (DLFixedVector.defaultVec T C).Inv := by
  refine ⟨Nat.zero_le _, fun i h => ?_⟩
  simp [DLFixedVector.defaultVec] at h

theorem DLFixedVector.inv_push {T : Type} {C : Nat} (s : DLFixedVector T C) (x : T)
    (hs : s.Inv) : (s.push x).1.Inv := by
  obtain ⟨hlen, hinit⟩ := hs
  unfold DLFixedVector.push
  dsimp only [DLFixedVector.len, DLFixedVector.capacity]
  by_cases hfull : s.checked_len + 1 > C
  · rw [if_pos hfull]; exact ⟨hlen, hinit⟩
  · rw [if_neg hfull]
    refine ⟨?_, fun i hi => ?_⟩
    · show s.checked_len + 1 ≤ C
      omega
    · dsimp only at hi ⊢
      by_cases hieq : i.val = s.checked_len
      · simp [hieq]
      · have hlt : i.val < s.checked_len := by omega
        simpa [hieq] using hinit i hlt

theorem DLFixedVector.inv_truncate {T : Type} {C : Nat} (s : DLFixedVector T C)
    (k : Nat) (hs : s.Inv) : (s.truncate k).1.Inv := by
  obtain ⟨hlen, hinit⟩ := hs
  unfold DLFixedVector.truncate
  dsimp only [DLFixedVector.len]
  by_cases hk : k < s.checked_len
  · rw [if_pos hk]
    refine ⟨?_, fun i hi => ?_⟩
    · show k ≤ C
      omega
    · dsimp only at hi ⊢
      have h1 : ¬(k ≤ i.val ∧ i.val < s.checked_len) := by omega
      have h2 : i.val < s.checked_len := by omega
      simpa [h1] using hinit i h2
  · rw [if_neg hk]; exact ⟨hlen, hinit⟩

theorem DLFixedVector.inv_resize {T : Type} {C : Nat} (s : DLFixedVector T C)
    (k : Nat) (x : T) (hs : s.Inv) : (s.resize k x).1.Inv := by
  obtain ⟨hlen, hinit⟩ := hs
  unfold DLFixedVector.resize
  dsimp only [DLFixedVector.len, DLFixedVector.capacity]
  by_cases hcap : k > C
  · rw [if_pos hcap]; exact ⟨hlen, hinit⟩
  · rw [if_neg hcap]
    by_cases hk : k < s.checked_len
    · rw [if_pos hk]
      exact DLFixedVector.inv_truncate s k ⟨hlen, hinit⟩
    · rw [if_neg hk]
      refine ⟨?_, fun i hi => ?_⟩
      · show k ≤ C
        omega
      · dsimp only at hi ⊢
        by_cases hfill : s.checked_len ≤ i.val ∧ i.val < k
        · simp [hfill]
        · have hlt : i.val < s.checked_len := by omega
          simpa [hfill] using hinit i hlt

theorem DLFixedVector.inv_applyOp {T : Type} {C : Nat} (s : DLFixedVector T C)
    (op : VecOp T) (hs : s.Inv) : (s.applyOp op).Inv := by
  cases op with
  | push x => exact DLFixedVector.inv_push s x hs
  | truncate k => exact DLFixedVector.inv_truncate s k hs
  | resize k x => exact DLFixedVector.inv_resize s k x hs

theorem DLFixedVector.inv_foldl {T : Type} {C : Nat} (ops : List (VecOp T))
    (s : DLFixedVector T C) (hs : s.Inv) :
    (ops.foldl DLFixedVector.applyOp s).Inv := by
  induction ops generalizing s with
  | nil => simpa using hs
  | cons op rest ih =>
    exact ih _ (DLFixedVector.inv_applyOp s op hs)

theorem DLFixedVector.inv_runOps (T : Type) (C : Nat) (ops : List (VecOp T)) :
    (DLFixedVector.runOps T C ops).Inv :=
  DLFixedVector.inv_foldl ops _ (DLFixedVector.inv_defaultVec T C)

/-- A concrete `DLFixedVector Nat 2` of length 1 holding `7` in slot 0,
used to instantiate the fixed-vector theorems. -/
def exVec1 : DLFixedVector Nat 2 :=
  { elements := fun i => if i.val = 0 then some 7 else none
    unk1 := 0
    checked_len := 1 }

/-- A concrete full `DLFixedVector Nat 2` holding `7, 8`. -/
def exVec2 : DLFixedVector Nat 2 :=
  { elements := fun i => if i.val = 0 then some 7 else some 8
    unk1 := 0
    checked_len := 2 }

/-- C5: every `DLFixedVector<T, C>` reachable from `Default::default()` by any
sequence of `push`, `truncate` and `resize` calls (succeeding or failing)
satisfies `0 ≤ len() ≤ capacity() = C`. -/
theorem c5_len_le_capacity_reachable (T : Type) (C : Nat) (ops : List (VecOp T)) :
    0 ≤ (DLFixedVector.runOps T C ops).len ∧
    (DLFixedVector.runOps T C ops).len ≤ (DLFixedVector.runOps T C ops).capacity ∧
    (DLFixedVector.runOps T C ops).capacity = C :=
  ⟨Nat.zero_le _, (DLFixedVector.inv_runOps T C ops).1, rfl⟩

/-- C2: under the length invariant, `push(value)` fails with `Err(value)` and
leaves the vector entirely unmutated exactly when `len() = C`; otherwise it
writes `value` into slot `len()`, increments the length to `len() + 1`, leaves
every other slot unchanged, and succeeds. -/
theorem c2_push_spec {T : Type} {C : Nat} (s : DLFixedVector T C) (x : T)
    (hs : s.Inv) :
    (s.push x = (s, Except.error x) ↔ s.len = C) ∧
    (s.len < C →
      (s.push x).2 = Except.ok () ∧
      (s.push x).1.len = s.len + 1 ∧
      (∀ i : Fin C, i.val = s.len → (s.push x).1.elements i = some x) ∧
      (∀ i : Fin C, i.val ≠ s.len → (s.push x).1.elements i = s.elements i) ∧
      (s.push x).1.unk1 = s.unk1) := by
  have hlen := hs.1
  unfold DLFixedVector.push
  dsimp only [DLFixedVector.len, DLFixedVector.capacity]
  by_cases hfull : s.checked_len + 1 > C
  · rw [if_pos hfull]
    refine ⟨⟨fun _ => by omega, fun _ => rfl⟩, fun hlt => by omega⟩
  · rw [if_neg hfull]
    constructor
    · constructor
      · intro heq
        exact absurd (congrArg Prod.snd heq) (by simp)
      · intro hC
        omega
    · intro hlt
      refine ⟨rfl, rfl, fun i hi => ?_, fun i hi => ?_, rfl⟩
      · dsimp only
        rw [if_pos hi]
      · dsimp only
        rw [if_neg hi]

/-- Witness for C2: pushing onto a non-full concrete vector succeeds and
increments the length. -/
theorem c2_push_spec_witness :
    exVec1.Inv ∧ exVec1.len < 2 ∧
    (exVec1.push 9).2 = Except.ok () ∧ (exVec1.push 9).1.len = 2 :=
  ⟨by decide, by decide,
    ((c2_push_spec exVec1 9 (by decide)).2 (by decide)).1,
    ((c2_push_spec exVec1 9 (by decide)).2 (by decide)).2.1⟩

/-- C3: under the length invariant, `truncate(k)` is a no-op when `k ≥ len()`;
when `k < len()` it destroys exactly the values in slots `[k, len())` in
ascending index order (the value of slot `i` is the `(i - k)`-th destroyed
item) and sets the length to `k`; in all cases the final length is
`min k len()` and the slots below `min k len()` are unchanged. -/
theorem c3_truncate_spec {T : Type} {C : Nat} (s : DLFixedVector T C) (k : Nat)
    (hs : s.Inv) :
    (s.len ≤ k → s.truncate k = (s, [])) ∧
    (s.truncate k).1.len = min k s.len ∧
    (∀ i : Fin C, i.val < min k s.len → (s.truncate k).1.elements i = s.elements i) ∧
    (k < s.len →
      ((s.truncate k).2).length = s.len - k ∧
      (∀ i : Fin C, k ≤ i.val → i.val < s.len →
        ((s.truncate k).2)[i.val - k]? = some (s.elements i) ∧
        (s.elements i).isSome)) := by
  obtain ⟨hlen, hinit⟩ := hs
  unfold DLFixedVector.truncate
  dsimp only [DLFixedVector.len]
  by_cases hk : k < s.checked_len
  · rw [if_pos hk]
    refine ⟨fun h => by omega, ?_, fun i hi => ?_, fun _ => ⟨by simp, fun i hki hil => ?_⟩⟩
    · dsimp only
      omega
    · dsimp only
      rw [if_neg (by omega)]
    · constructor
      · dsimp only
        rw [List.getElem?_map, List.getElem?_range' k 1 (by omega)]
        have harith : k + 1 * (i.val - k) = i.val := by omega
        rw [harith]
        dsimp only [Option.map]
        rw [dif_pos i.isLt]
      · exact hinit i hil
  · rw [if_neg hk]
    refine ⟨fun _ => rfl, by dsimp only; omega, fun i _ => rfl, fun h => by omega⟩

/-- Witness for C3: truncating a concrete length-2 vector to length 1 destroys
exactly the value in slot 1 and keeps slot 0. -/
theorem c3_truncate_spec_witness :
    exVec2.Inv ∧ (1 : Nat) < exVec2.len ∧
    (exVec2.truncate 1).1.len = 1 ∧ ((exVec2.truncate 1).2).length = 1 :=
  ⟨by decide, by decide,
    (c3_truncate_spec exVec2 1 (by decide)).2.1,
    ((c3_truncate_spec exVec2 1 (by decide)).2.2.2 (by decide)).1⟩

/-- C4: under the length invariant, `resize(n, v)` with `n > C` fails with
`Err(v)` and no mutation; with `n ≤ len()` it produces exactly the final state
(and drop trace) of `truncate(n)` and succeeds; with `len() < n ≤ C` it fills
slots `[len(), n)` with copies of `v`, leaves slots `[0, len())` unchanged,
sets the length to `n`, and succeeds. -/
theorem c4_resize_spec {T : Type} {C : Nat} (s : DLFixedVector T C) (n : Nat)
    (v : T) (hs : s.Inv) :
    (C < n → s.resize n v = (s, [], Except.error v)) ∧
    (n ≤ s.len → s.resize n v = ((s.truncate n).1, (s.truncate n).2, Except.ok ())) ∧
    (s.len < n → n ≤ C →
      (s.resize n v).2.2 = Except.ok () ∧
      (s.resize n v).2.1 = [] ∧
      (s.resize n v).1.len = n ∧
      (∀ i : Fin C, s.len ≤ i.val → i.val < n → (s.resize n v).1.elements i = some v) ∧
      (∀ i : Fin C, i.val < s.len → (s.resize n v).1.elements i = s.elements i) ∧
      (s.resize n v).1.unk1 = s.unk1) := by
  obtain ⟨hlen, hinit⟩ := hs
  unfold DLFixedVector.resize
  dsimp only [DLFixedVector.len, DLFixedVector.capacity]
  by_cases hcap : n > C
  · rw [if_pos hcap]
    exact ⟨fun _ => rfl, fun h => by omega, fun h1 h2 => by omega⟩
  · rw [if_neg hcap]
    by_cases hk : n < s.checked_len
    · rw [if_pos hk]
      refine ⟨fun h => by omega, fun _ => rfl, fun h1 h2 => by omega⟩
    · rw [if_neg hk]
      refine ⟨fun h => by omega, fun hle => ?_, fun h1 h2 => ?_⟩
      · have hn : n = s.checked_len := by omega
        have hstate :
            ({ s with
                elements := fun i =>
                  if s.checked_len ≤ i.val ∧ i.val < n then some v else s.elements i,
                checked_len := n } : DLFixedVector T C) = s := by
          ext i
          · dsimp only
            rw [if_neg (by omega)]
          · rfl
          · exact hn
        rw [hstate]
        unfold DLFixedVector.truncate
        dsimp only [DLFixedVector.len]
        rw [if_neg hk]
      · refine ⟨rfl, rfl, rfl, fun i hi1 hi2 => ?_, fun i hi => ?_, rfl⟩
        · dsimp only
          rw [if_pos ⟨hi1, hi2⟩]
        · dsimp only
          rw [if_neg (by omega)]

/-- Witness for C4: growing a concrete length-1 vector to length 2 fills
slot 1 with the fill value and succeeds. -/
theorem c4_resize_spec_witness :
    exVec1.Inv ∧ exVec1.len < 2 ∧
    (exVec1.resize 2 9).2.2 = Except.ok () ∧ (exVec1.resize 2 9).1.len = 2 :=
  ⟨by decide, by decide,
    ((c4_resize_spec exVec1 2 9 (by decide)).2.2 (by decide) (by decide)).1,
    ((c4_resize_spec exVec1 2 9 (by decide)).2.2 (by decide) (by decide)).2.2.1⟩

/-- C6: dropping a `DLFixedVector` is the call `truncate(0)`: it destroys
exactly the `len()` live values, slot `i`'s value being destroyed exactly once
(as the `i`-th destroyed item), and leaves the uninitialized slots
`[len(), C)` untouched. -/
theorem c6_drop_spec {T : Type} {C : Nat} (s : DLFixedVector T C) (hs : s.Inv) :
    s.dropVec = s.truncate 0 ∧
    ((s.dropVec).2).length = s.len ∧
    (∀ i : Fin C, i.val < s.len →
      ((s.dropVec).2)[i.val]? = some (s.elements i) ∧ (s.elements i).isSome) ∧
    (∀ i : Fin C, s.len ≤ i.val → (s.dropVec).1.elements i = s.elements i) ∧
    (s.dropVec).1.len = 0 := by
  obtain ⟨hlen, hinit⟩ := hs
  unfold DLFixedVector.dropVec DLFixedVector.truncate
  dsimp only [DLFixedVector.len]
  by_cases h0 : 0 < s.checked_len
  · rw [if_pos h0]
    refine ⟨rfl, by simp, fun i hi => ⟨?_, hinit i hi⟩, fun i hi => ?_, rfl⟩
    · dsimp only
      rw [List.getElem?_map, List.getElem?_range' 0 1 (by omega)]
      have harith : 0 + 1 * i.val = i.val := by omega
      rw [harith]
      dsimp only [Option.map]
      rw [dif_pos i.isLt]
    · dsimp only
      rw [if_neg (by omega)]
  · rw [if_neg h0]
    have hz : s.checked_len = 0 := by omega
    exact ⟨rfl, by simp [hz], fun i hi => absurd hi (by omega),
      fun i hi => rfl, by dsimp only; omega⟩

/-- Witness for C6: dropping a concrete length-2 vector destroys exactly its
two live values. -/
theorem c6_drop_spec_witness :
    exVec2.Inv ∧ ((exVec2.dropVec).2).length = 2 ∧ (exVec2.dropVec).1.len = 0 :=
  ⟨by decide,
    (c6_drop_spec exVec2 (by decide)).2.1,
    (c6_drop_spec exVec2 (by decide)).2.2.2.2⟩

/-- Fate of the by-value `value` argument of `DLAutoDeletePtr::try_new_in`
under Rust move semantics: it is either written into the fresh allocation
(`ptr::write`), dropped inside the callee when the function returns early, or
handed back to the caller (which would require a return type carrying `T`). -/
inductive ValueFate (T : Type) where
  | storedAt : Nat → T → ValueFate T
  | droppedInCallee : ValueFate T
  | returnedToCaller : T → ValueFate T
  deriving DecidableEq

/-- Model of `DLAutoDeletePtr::try_new_in` (dlut.rs lines 304-311). The allocator is
its `allocate_aligned` entry point, modelled as a function from
(size, align) to the returned raw address, `0` standing for the null pointer.
The call computes `ptr = allocator.allocate_aligned(size_of::<T>(),
align_of::<T>())`; `NonNull::new(ptr)?` returns `None` when `ptr` is null —
at that point the moved-in `value` is dropped — and otherwise
`ptr::write(ptr, value)` stores the value and `Some(Self(ptr))` is returned.
Result: (returned pointer address, fate of `value`). -/
def tryNewIn {T : Type} (allocate_aligned : Nat → Nat → Nat)
    (sizeT alignT : Nat) (value : T) : Option Nat × ValueFate T :=
  let ptr := allocate_aligned sizeT alignT
  if ptr = 0 then
    (none, ValueFate.droppedInCallee)
  else
    (some ptr, ValueFate.storedAt ptr value)

/-- A deallocation call observed by an allocator: which allocator object was
invoked (`deallocate` receiver) and with which address. -/
structure DeallocEvent (A : Type) where
  allocator : A
  address : Nat
  deriving DecidableEq

/-- The `Drop` impl of `DLAutoDeletePtr` (dlut.rs lines 314-320): with `ptr`
the held address, it calls `get_heap_allocator_of(ptr)` — the allocator
registry lookup, which lives in `crate::dlkr` and is abstracted here as an
arbitrary function from addresses to allocators — and then calls
`deallocate(ptr)` on the allocator so obtained. The result is the list of
deallocation calls the drop performs, in order. -/
def autoDeletePtrDrop {A : Type} (get_heap_allocator_of : Nat → A)
    (ptr : Nat) : List (DeallocEvent A) :=
  let allocator := get_heap_allocator_of ptr
  [{ allocator := allocator, address := ptr }]

/-- C1 counterexample: with an allocator that cannot satisfy the request
(returns the null address), `try_new_in` fails, and the fate of the concrete
input value `42` is to be dropped inside the callee — it is not returned to
the caller, contradicting the claim that the caller retains it. -/
theorem c1_counterexample :
    (tryNewIn (fun _ _ => 0) 8 8 (42 : Nat)).1 = none ∧
    (tryNewIn (fun _ _ => 0) 8 8 (42 : Nat)).2 ≠ ValueFate.returnedToCaller 42 ∧
    (tryNewIn (fun _ _ => 0) 8 8 (42 : Nat)).2 = ValueFate.droppedInCallee := by
  refine ⟨rfl, ?_, rfl⟩
  intro h
  exact absurd h (by decide)

/-- C1 (amended): if the allocator returns a null address, `try_new_in`
returns a failure (`None`) and the input value is dropped inside the call —
it is consumed, not leaked, and the caller does not retain it; the value is
stored (never dropped, never returned) exactly when allocation succeeds. -/
theorem c1_tryNewIn_failure {T : Type} (allocate_aligned : Nat → Nat → Nat)
    (sizeT alignT : Nat) (value : T)
    (hfail : allocate_aligned sizeT alignT = 0) :
    tryNewIn allocate_aligned sizeT alignT value =
      (none, ValueFate.droppedInCallee) := by
  unfold tryNewIn
  rw [if_pos hfail]

/-- Witness for C1 (amended) at a concrete null-returning allocator. -/
theorem c1_tryNewIn_failure_witness :
    (fun (_ _ : Nat) => 0) 8 8 = 0 ∧
    tryNewIn (fun _ _ => 0) 8 8 (42 : Nat) = (none, ValueFate.droppedInCallee) :=
  ⟨rfl, c1_tryNewIn_failure (fun _ _ => 0) 8 8 42 rfl⟩

/-- C7: dropping a `DLAutoDeletePtr` holding address `a` performs exactly one
deallocation call; it targets the allocator the registry
(`get_heap_allocator_of`) associates with `a`, and passes exactly `a` — for
every registry, hence in particular when multiple allocators are registered
over disjoint address ranges. -/
theorem c7_autoDeletePtrDrop_spec {A : Type} (registry : Nat → A) (a : Nat) :
    (autoDeletePtrDrop registry a).length = 1 ∧
    (autoDeletePtrDrop registry a).head? =
      some { allocator := registry a, address := a } :=
  ⟨rfl, rfl⟩

/-- The two slots of the `DLReferenceCountObjectVmt` dispatch table
(dlut.rs lines 17-23): `clean_up` and `destructor`, and nothing else. -/
inductive RefHook where
  | clean_up : RefHook
  | destructor : RefHook
  deriving DecidableEq

/-- Model of `DLReferenceCountObjectBase` (dlut.rs lines 28-33): the reference count
(the vtable reference is represented by the `RefHook` call alphabet, the
padding field carries no state). -/
structure DLReferenceCountObjectBase where
  reference_count : Nat
  deriving DecidableEq

/-- Modelled from the spec: the decrement-and-maybe-destroy operation of the
reference-counted header. `dlut.rs` only declares the struct and its two-slot
vtable trait; the decrement itself is not implemented under `src/`. Per the
spec (§4.4), a decrement that brings the count to exactly 0 invokes the
zero-count notification hook (`clean_up`) and then the destructor hook before
returning; a decrement that leaves the count above 0 invokes neither.
Result: (new header state, hook invocations in call order). -/
def decrementRef (s : DLReferenceCountObjectBase) :
    DLReferenceCountObjectBase × List RefHook :=
  let c := s.reference_count - 1
  if c = 0 then
    ({ reference_count := 0 }, [RefHook.clean_up, RefHook.destructor])
  else
    ({ reference_count := c }, [])

/-- C8: for a header with a live count, a decrement from exactly 1 invokes
`clean_up` then `destructor`, each exactly once with the notification strictly
first, before returning; a decrement from a count above 1 invokes neither hook
and just lowers the count. -/
theorem c8_decrementRef_spec (s : DLReferenceCountObjectBase) :
    (s.reference_count = 1 →
      (decrementRef s).1.reference_count = 0 ∧
      (decrementRef s).2 = [RefHook.clean_up, RefHook.destructor] ∧
      ((decrementRef s).2).count RefHook.clean_up = 1 ∧
      ((decrementRef s).2).count RefHook.destructor = 1 ∧
      ((decrementRef s).2).indexOf RefHook.clean_up <
        ((decrementRef s).2).indexOf RefHook.destructor) ∧
    (1 < s.reference_count →
      (decrementRef s).1.reference_count = s.reference_count - 1 ∧
      (decrementRef s).2 = []) := by
  unfold decrementRef
  constructor
  · intro h1
    rw [h1]
    exact ⟨rfl, rfl, by decide, by decide, by decide⟩
  · intro h2
    rw [if_neg (by omega)]
    exact ⟨rfl, rfl⟩

/-- Witness for C8: decrementing from count 2 fires no hook and leaves
count 1; decrementing from count 1 fires exactly `clean_up` then
`destructor`. -/
theorem c8_decrementRef_spec_witness :
    (({ reference_count := 2 } : DLReferenceCountObjectBase).reference_count = 2) ∧
    (decrementRef { reference_count := 2 }).2 = [] ∧
    (decrementRef { reference_count := 2 }).1.reference_count = 1 ∧
    (decrementRef { reference_count := 1 }).2 =
      [RefHook.clean_up, RefHook.destructor] :=
  ⟨rfl,
    ((c8_decrementRef_spec { reference_count := 2 }).2 (by decide)).2,
    ((c8_decrementRef_spec { reference_count := 2 }).2 (by decide)).1,
    ((c8_decrementRef_spec { reference_count := 1 }).1 rfl).2.1⟩

/-- The leap-year helper `is_leap_year` inside `DLDateTime::calculate_time64`
(dlut.rs lines 128-130): `(year.is_multiple_of(4) &&
!year.is_multiple_of(100)) || year.is_multiple_of(400)`, where
`is_multiple_of(n)` is `year % n == 0`. -/
def is_leap_year (year : Nat) : Bool :=
  (year % 4 == 0 && !(year % 100 == 0)) || year % 400 == 0

/-- C9: `is_leap_year y` returns `true` iff `y` is divisible by 4 and not by
100, or divisible by 400. -/
theorem c9_is_leap_year_spec (y : Nat) :
    is_leap_year y = true ↔ ((4 ∣ y ∧ ¬(100 ∣ y)) ∨ 400 ∣ y) := by
  unfold is_leap_year
  simp only [Bool.or_eq_true, Bool.and_eq_true, Bool.not_eq_eq_eq_not,
    Bool.not_true, beq_iff_eq, beq_eq_false_iff_ne, ne_eq,
    Nat.dvd_iff_mod_eq_zero]

/-- Read of bits `[lsb, lsb+width)` of the `u64` backing store: the
`bitfield` crate's generated getter, `(self.0 >> lsb) & ((1 << width) - 1)`. -/
def getBitRange (p lsb width : Nat) : Nat :=
  (p >>> lsb) &&& (2 ^ width - 1)

/-- Write of bits `[lsb, lsb+width)` of the `u64` backing store: the
`bitfield` crate's generated setter clears the field
(`self.0 & !(mask << lsb)`, complement taken within the 64-bit store) and ors
in the value masked to the field's width (`(value & mask) << lsb`). -/
def setBitRange (p lsb width v : Nat) : Nat :=
  (p &&& ((2 ^ 64 - 1) ^^^ ((2 ^ width - 1) <<< lsb))) |||
    ((v &&& (2 ^ width - 1)) <<< lsb)

theorem getBitRange_setBitRange_self (p v lsb w : Nat) (hw : lsb + w ≤ 64) :
    getBitRange (setBitRange p lsb w v) lsb w = v % 2 ^ w := by
  apply Nat.eq_of_testBit_eq
  intro i
  simp only [getBitRange, setBitRange, Nat.testBit_and, Nat.testBit_or,
    Nat.testBit_xor, Nat.testBit_shiftLeft, Nat.testBit_shiftRight,
    Nat.testBit_two_pow_sub_one, Nat.testBit_mod_two_pow]
  by_cases hi : i < w
  · have h64 : lsb + i < 64 := by omega
    have hge : lsb ≤ lsb + i := Nat.le_add_right _ _
    have hsub : lsb + i - lsb = i := by omega
    simp [hi, h64, hge, hsub]
  · simp [hi]

theorem getBitRange_setBitRange_disjoint (p v lsb w lsb2 w2 : Nat)
    (hw : lsb + w ≤ 64) (hd : lsb + w ≤ lsb2 ∨ lsb2 + w2 ≤ lsb) :
    getBitRange (setBitRange p lsb2 w2 v) lsb w = getBitRange p lsb w := by
  apply Nat.eq_of_testBit_eq
  intro i
  simp only [getBitRange, setBitRange, Nat.testBit_and, Nat.testBit_or,
    Nat.testBit_xor, Nat.testBit_shiftLeft, Nat.testBit_shiftRight,
    Nat.testBit_two_pow_sub_one]
  by_cases hi : i < w
  · have h64 : lsb + i < 64 := by omega
    rcases hd with hd1 | hd2
    · have hlt : ¬(lsb2 ≤ lsb + i) := by omega
      simp [hi, h64, hlt]
    · by_cases hge2 : lsb2 ≤ lsb + i
      · have hout : ¬(lsb + i - lsb2 < w2) := by omega
        simp [hi, h64, hge2, hout]
      · simp [hi, h64, hge2]
  · simp [hi]

/-- Model of the `PackedDate` field `year, set_year: 11, 0` (dlut.rs line 40): bits
`[0, 12)` of the `u64` backing store. The other fields follow the bitfield
declaration at dlut.rs lines 35-50. -/
def PackedDate.year (p : Nat) : Nat := getBitRange p 0 12

def PackedDate.set_year (p v : Nat) : Nat := setBitRange p 0 12 v

/-- Field `millisecond, set_millisecond: 21, 12`: bits `[12, 22)`. -/
def PackedDate.millisecond (p : Nat) : Nat := getBitRange p 12 10

def PackedDate.set_millisecond (p v : Nat) : Nat := setBitRange p 12 10 v

/-- Field `month, set_month: 25, 22`: bits `[22, 26)`. -/
def PackedDate.month (p : Nat) : Nat := getBitRange p 22 4

def PackedDate.set_month (p v : Nat) : Nat := setBitRange p 22 4 v

/-- Field `day_of_week, set_day_of_week: 28, 26`: bits `[26, 29)`. -/
def PackedDate.day_of_week (p : Nat) : Nat := getBitRange p 26 3

def PackedDate.set_day_of_week (p v : Nat) : Nat := setBitRange p 26 3 v

/-- Field `day, set_day: 33, 29`: bits `[29, 34)`. -/
def PackedDate.day (p : Nat) : Nat := getBitRange p 29 5

def PackedDate.set_day (p v : Nat) : Nat := setBitRange p 29 5 v

/-- Field `hours, set_hours: 38, 34`: bits `[34, 39)`. -/
def PackedDate.hours (p : Nat) : Nat := getBitRange p 34 5

def PackedDate.set_hours (p v : Nat) : Nat := setBitRange p 34 5 v

/-- Field `minutes, set_minutes: 44, 39`: bits `[39, 45)`. -/
def PackedDate.minutes (p : Nat) : Nat := getBitRange p 39 6

def PackedDate.set_minutes (p v : Nat) : Nat := setBitRange p 39 6 v

/-- Field `seconds, set_seconds: 50, 45`: bits `[45, 51)`. -/
def PackedDate.seconds (p : Nat) : Nat := getBitRange p 45 6

def PackedDate.set_seconds (p v : Nat) : Nat := setBitRange p 45 6 v

/-- Single-bit field `is_utc, set_is_utc: 51`: the getter is
`bit 51 != 0`, the setter writes the bit. -/
def PackedDate.is_utc (p : Nat) : Bool := getBitRange p 51 1 != 0

def PackedDate.set_is_utc (p : Nat) (b : Bool) : Nat :=
  setBitRange p 51 1 (if b then 1 else 0)

/-- The date half of `DLDateTime::new` (dlut.rs lines 74-88): starting from
`PackedDate::default()` (all bits zero), apply the setters in source order:
year, month, day, hours, minutes, seconds, millisecond, is_utc. The
`DLDateTime` getters `year()`, `month()`, ... (dlut.rs lines 91-117) delegate
to the `PackedDate` getters on this value. -/
def DLDateTime.newDate (year month day hours minutes seconds milliseconds : Nat)
    (is_utc : Bool) : Nat :=
  PackedDate.set_is_utc
    (PackedDate.set_millisecond
      (PackedDate.set_seconds
        (PackedDate.set_minutes
          (PackedDate.set_hours
            (PackedDate.set_day
              (PackedDate.set_month
                (PackedDate.set_year 0 year)
                month)
              day)
            hours)
          minutes)
        seconds)
      milliseconds)
    is_utc

theorem newDate_year (y mo d h mi s ms : Nat) (u : Bool) :
    PackedDate.year (DLDateTime.newDate y mo d h mi s ms u) = y % 4096 := by
  unfold DLDateTime.newDate PackedDate.year PackedDate.set_is_utc
    PackedDate.set_millisecond PackedDate.set_seconds PackedDate.set_minutes
    PackedDate.set_hours PackedDate.set_day PackedDate.set_month
    PackedDate.set_year
  rw [getBitRange_setBitRange_disjoint _ _ _ _ _ _ (by omega) (by omega),
    getBitRange_setBitRange_disjoint _ _ _ _ _ _ (by omega) (by omega),
    getBitRange_setBitRange_disjoint _ _ _ _ _ _ (by omega) (by omega),
    getBitRange_setBitRange_disjoint _ _ _ _ _ _ (by omega) (by omega),
    getBitRange_setBitRange_disjoint _ _ _ _ _ _ (by omega) (by omega),
    getBitRange_setBitRange_disjoint _ _ _ _ _ _ (by omega) (by omega),
    getBitRange_setBitRange_disjoint _ _ _ _ _ _ (by omega) (by omega),
    getBitRange_setBitRange_self _ _ _ _ (by omega)]
  norm_num

theorem newDate_month (y mo d h mi s ms : Nat) (u : Bool) :
    PackedDate.month (DLDateTime.newDate y mo d h mi s ms u) = mo % 16 := by
  unfold DLDateTime.newDate PackedDate.month PackedDate.set_is_utc
    PackedDate.set_millisecond PackedDate.set_seconds PackedDate.set_minutes
    PackedDate.set_hours PackedDate.set_day PackedDate.set_month
  rw [getBitRange_setBitRange_disjoint _ _ _ _ _ _ (by omega) (by omega),
    getBitRange_setBitRange_disjoint _ _ _ _ _ _ (by omega) (by omega),
    getBitRange_setBitRange_disjoint _ _ _ _ _ _ (by omega) (by omega),
    getBitRange_setBitRange_disjoint _ _ _ _ _ _ (by omega) (by omega),
    getBitRange_setBitRange_disjoint _ _ _ _ _ _ (by omega) (by omega),
    getBitRange_setBitRange_disjoint _ _ _ _ _ _ (by omega) (by omega),
    getBitRange_setBitRange_self _ _ _ _ (by omega)]
  norm_num

theorem newDate_day (y mo d h mi s ms : Nat) (u : Bool) :
    PackedDate.day (DLDateTime.newDate y mo d h mi s ms u) = d % 32 := by
  unfold DLDateTime.newDate PackedDate.day PackedDate.set_is_utc
    PackedDate.set_millisecond PackedDate.set_seconds PackedDate.set_minutes
    PackedDate.set_hours PackedDate.set_day
  rw [getBitRange_setBitRange_disjoint _ _ _ _ _ _ (by omega) (by omega),
    getBitRange_setBitRange_disjoint _ _ _ _ _ _ (by omega) (by omega),
    getBitRange_setBitRange_disjoint _ _ _ _ _ _ (by omega) (by omega),
    getBitRange_setBitRange_disjoint _ _ _ _ _ _ (by omega) (by omega),
    getBitRange_setBitRange_disjoint _ _ _ _ _ _ (by omega) (by omega),
    getBitRange_setBitRange_self _ _ _ _ (by omega)]
  norm_num

theorem newDate_hours (y mo d h mi s ms : Nat) (u : Bool) :
    PackedDate.hours (DLDateTime.newDate y mo d h mi s ms u) = h % 32 := by
  unfold DLDateTime.newDate PackedDate.hours PackedDate.set_is_utc
    PackedDate.set_millisecond PackedDate.set_seconds PackedDate.set_minutes
    PackedDate.set_hours
  rw [getBitRange_setBitRange_disjoint _ _ _ _ _ _ (by omega) (by omega),
    getBitRange_setBitRange_disjoint _ _ _ _ _ _ (by omega) (by omega),
    getBitRange_setBitRange_disjoint _ _ _ _ _ _ (by omega) (by omega),
    getBitRange_setBitRange_disjoint _ _ _ _ _ _ (by omega) (by omega),
    getBitRange_setBitRange_self _ _ _ _ (by omega)]
  norm_num

theorem newDate_minutes (y mo d h mi s ms : Nat) (u : Bool) :
    PackedDate.minutes (DLDateTime.newDate y mo d h mi s ms u) = mi % 64 := by
  unfold DLDateTime.newDate PackedDate.minutes PackedDate.set_is_utc
    PackedDate.set_millisecond PackedDate.set_seconds PackedDate.set_minutes
  rw [getBitRange_setBitRange_disjoint _ _ _ _ _ _ (by omega) (by omega),
    getBitRange_setBitRange_disjoint _ _ _ _ _ _ (by omega) (by omega),
    getBitRange_setBitRange_disjoint _ _ _ _ _ _ (by omega) (by omega),
    getBitRange_setBitRange_self _ _ _ _ (by omega)]
  norm_num

theorem newDate_seconds (y mo d h mi s ms : Nat) (u : Bool) :
    PackedDate.seconds (DLDateTime.newDate y mo d h mi s ms u) = s % 64 := by
  unfold DLDateTime.newDate PackedDate.seconds PackedDate.set_is_utc
    PackedDate.set_millisecond PackedDate.set_seconds
  rw [getBitRange_setBitRange_disjoint _ _ _ _ _ _ (by omega) (by omega),
    getBitRange_setBitRange_disjoint _ _ _ _ _ _ (by omega) (by omega),
    getBitRange_setBitRange_self _ _ _ _ (by omega)]
  norm_num

theorem newDate_is_utc (y mo d h mi s ms : Nat) (u : Bool) :
    PackedDate.is_utc (DLDateTime.newDate y mo d h mi s ms u) = u := by
  unfold DLDateTime.newDate PackedDate.is_utc PackedDate.set_is_utc
  rw [getBitRange_setBitRange_self _ _ _ _ (by omega)]
  cases u <;> rfl

/-- C10: for the packed date built by `DLDateTime::new`, every getter returns
its argument reduced modulo the field width (`year` mod 2^12, `month` mod
2^4, `day` mod 2^5, `hours` mod 2^5, `minutes` mod 2^6, `seconds` mod 2^6,
`is_utc` exactly) — so arguments wider than a field are truncated to the
field's width — and for arguments within the bit widths each getter returns
the argument itself. -/
theorem c10_packed_date_roundtrip (y mo d h mi s ms : Nat) (u : Bool) :
    PackedDate.year (DLDateTime.newDate y mo d h mi s ms u) = y % 4096 ∧
    PackedDate.month (DLDateTime.newDate y mo d h mi s ms u) = mo % 16 ∧
    PackedDate.day (DLDateTime.newDate y mo d h mi s ms u) = d % 32 ∧
    PackedDate.hours (DLDateTime.newDate y mo d h mi s ms u) = h % 32 ∧
    PackedDate.minutes (DLDateTime.newDate y mo d h mi s ms u) = mi % 64 ∧
    PackedDate.seconds (DLDateTime.newDate y mo d h mi s ms u) = s % 64 ∧
    PackedDate.is_utc (DLDateTime.newDate y mo d h mi s ms u) = u ∧
    (y < 4096 → PackedDate.year (DLDateTime.newDate y mo d h mi s ms u) = y) ∧
    (mo < 16 → PackedDate.month (DLDateTime.newDate y mo d h mi s ms u) = mo) ∧
    (d < 32 → PackedDate.day (DLDateTime.newDate y mo d h mi s ms u) = d) ∧
    (h < 32 → PackedDate.hours (DLDateTime.newDate y mo d h mi s ms u) = h) ∧
    (mi < 64 → PackedDate.minutes (DLDateTime.newDate y mo d h mi s ms u) = mi) ∧
    (s < 64 → PackedDate.seconds (DLDateTime.newDate y mo d h mi s ms u) = s) := by
  refine ⟨newDate_year y mo d h mi s ms u, newDate_month y mo d h mi s ms u,
    newDate_day y mo d h mi s ms u, newDate_hours y mo d h mi s ms u,
    newDate_minutes y mo d h mi s ms u, newDate_seconds y mo d h mi s ms u,
    newDate_is_utc y mo d h mi s ms u, fun hb => ?_, fun hb => ?_, fun hb => ?_,
    fun hb => ?_, fun hb => ?_, fun hb => ?_⟩
  · rw [newDate_year y mo d h mi s ms u]
    omega
  · rw [newDate_month y mo d h mi s ms u]
    omega
  · rw [newDate_day y mo d h mi s ms u]
    omega
  · rw [newDate_hours y mo d h mi s ms u]
    omega
  · rw [newDate_minutes y mo d h mi s ms u]
    omega
  · rw [newDate_seconds y mo d h mi s ms u]
    omega

/-- Witness for C10: a concrete in-range date round-trips, and a too-wide
month argument is truncated modulo 16. -/
theorem c10_packed_date_roundtrip_witness :
    (2024 : Nat) < 4096 ∧
    PackedDate.year (DLDateTime.newDate 2024 7 15 12 30 45 500 true) = 2024 ∧
    PackedDate.is_utc (DLDateTime.newDate 2024 7 15 12 30 45 500 true) = true ∧
    PackedDate.month (DLDateTime.newDate 2024 200 15 12 30 45 500 true) = 200 % 16 :=
  ⟨by decide,
    (c10_packed_date_roundtrip 2024 7 15 12 30 45 500 true).2.2.2.2.2.2.2.1
      (by decide),
    (c10_packed_date_roundtrip 2024 7 15 12 30 45 500 true).2.2.2.2.2.2.1,
    (c10_packed_date_roundtrip 2024 200 15 12 30 45 500 true).2.1⟩
